import Mathlib

/-!
Verification development for the FairMarket browser extension.

The repository has two JavaScript source files that matter here:
the content script (CONFIG, extractFeatures, MathOps.dense, TinyVAE,
runAnalysis, logForFederatedLearning) and the popup script
(runFederatedCycle, fetchGlobalWeights, trainOnLogs).

JavaScript numbers are modelled as exact rationals for the configuration
constants, the discrepancy classifier, the feature extractor and the local
trainer, and as real numbers for the neural-network math engine, whose
sigmoid activation needs the real exponential.  JavaScript mutation is
modelled by explicit state passing, network and storage effects by
explicit outcome parameters describing what the external world returned.
-/

namespace FairMarket

/-! ### Configuration constants (content script, CONFIG object) -/

def MAX_PRICE : ℚ := 500000
def MAX_RAM : ℚ := 64
def THRESHOLD : ℚ := 0.005
def BIAS_TOLERANCE : ℚ := 0.015
def MAX_ERROR_CAP : ℚ := 0.15

/-- Learning rate constant declared inside trainOnLogs in the popup script. -/
def LEARNING_RATE : ℚ := 0.05

/-! ### Data model -/

/-- A training log entry as built by logForFederatedLearning: timestamp,
site, feature vector, reconstruction error and a discrepancy type string
(OVERPRICED_BIAS or UNDERPRICED_DEAL). -/
structure TrainingLogEntry where
  timestamp : String
  site : String
  features : List ℚ
  reconstruction_error : ℚ
  type : String
deriving DecidableEq

/-- Six alternating layer arrays (weight matrix, bias, weight matrix, bias,
weight matrix, bias) as stored under the encoder and decoder keys of the
model-weights JSON.  Index 4 is the final weight matrix, index 5 the final
bias. -/
structure NN6 (α : Type) where
  l0 : List (List α)
  l1 : List α
  l2 : List (List α)
  l3 : List α
  l4 : List (List α)
  l5 : List α
deriving DecidableEq

/-- Model weights: an encoder group and a decoder group of six layer arrays
each. -/
structure ModelWeights (α : Type) where
  encoder : NN6 α
  decoder : NN6 α
deriving DecidableEq

/-! ### Discrepancy classifier and federated-learning logger
(content script, runAnalysis lines 354-379 and logForFederatedLearning
lines 385-401).  Both are driven by element 3 of the input and output
vectors; out-of-range indexing is modelled with getD, which the theorems
never rely on because the claims quantify over the vectors themselves. -/

inductive Popup
  | overpriced
  | deal
  | fair
deriving DecidableEq

/-- The popup decision of runAnalysis: with error = |input[3] - output[3]|,
nothing is shown unless error < MAX_ERROR_CAP; under the cap the nested
conditional picks overpriced, deal or fair. -/
def runAnalysisPopup (input output : List ℚ) : Option Popup :=
  let error := |input.getD 3 0 - output.getD 3 0|
  if error < MAX_ERROR_CAP then
    if input.getD 3 0 > output.getD 3 0 ∧ error > BIAS_TOLERANCE then
      some Popup.overpriced
    else if input.getD 3 0 < output.getD 3 0 ∧ error > THRESHOLD then
      some Popup.deal
    else
      some Popup.fair
  else
    none

/-- logForFederatedLearning: builds a log entry from the vectors and the
error and appends it to the persisted trainingLogs queue.  The timestamp
and site are supplied by the environment (new Date, detectSite). -/
def logForFederatedLearning (input output : List ℚ) (error : ℚ)
    (ts site : String) (queue : List TrainingLogEntry) : List TrainingLogEntry :=
  queue ++ [{ timestamp := ts
              site := site
              features := input
              reconstruction_error := error
              type := if input.getD 3 0 > output.getD 3 0
                      then "OVERPRICED_BIAS" else "UNDERPRICED_DEAL" }]

/-- The logging step of runAnalysis: the entry is appended exactly when
error > THRESHOLD, before and independently of the popup decision. -/
def runAnalysisQueue (input output : List ℚ) (ts site : String)
    (queue : List TrainingLogEntry) : List TrainingLogEntry :=
  let error := |input.getD 3 0 - output.getD 3 0|
  if error > THRESHOLD then
    logForFederatedLearning input output error ts site queue
  else
    queue

/-! ### Local trainer (popup script, trainOnLogs lines 85-132).
The JS function deep-copies currentWeights.decoder, then for each log of
type UNDERPRICED_DEAL subtracts LEARNING_RATE * 0.001 from every entry of
the copy's layer 4; logs of any other type leave the copy untouched.  The
caller's weights object is never written, which the embedding records by
returning the final value of that object alongside the returned decoder. -/

/-- One iteration of the forEach loop in trainOnLogs, acting on the decoder
copy. -/
def trainStep (dec : NN6 ℚ) (log : TrainingLogEntry) : NN6 ℚ :=
  if log.type = "UNDERPRICED_DEAL" then
    { dec with l4 := dec.l4.map (fun row => row.map (fun x => x - LEARNING_RATE * 0.001)) }
  else
    dec

/-- trainOnLogs: returns the final value of the caller's weights object
(first component, never written thanks to the deep copy) and the updated
decoder copy (second component). -/
def trainOnLogs (currentWeights : ModelWeights ℚ) (logs : List TrainingLogEntry) :
    ModelWeights ℚ × NN6 ℚ :=
  (currentWeights, logs.foldl trainStep currentWeights.decoder)

/-- Number of log entries of type UNDERPRICED_DEAL. -/
def countUnderpriced (logs : List TrainingLogEntry) : ℕ :=
  (logs.filter (fun l => l.type = "UNDERPRICED_DEAL")).length

/-! ### Network outcomes.
A fetch either rejects (network error, the only case in which the browser
fetch promise rejects) or yields a response carrying an HTTP status code
and a body; response.json() either parses, giving a value of the payload
type, or throws, modelled by a body of none.  Neither source file ever
reads the status code of a response. -/

/-- An HTTP response as the code observes it: a status code, and the result
of response.json() on its body (none when the body is not valid JSON). -/
structure HttpResponse (α : Type) where
  status : ℕ
  body : Option α
deriving DecidableEq

/-- Outcome of a fetch call: promise rejection (network error) or a
response. -/
inductive FetchOutcome (α : Type)
  | netError
  | ok (r : HttpResponse α)
deriving DecidableEq

/-- response.ok of the browser fetch API: status in 200..299.  Declared to
state claims about HTTP-status handling; the repository's code never
computes it. -/
def isSuccessStatus (s : ℕ) : Bool :=
  200 ≤ s && s < 300

/-- Where the engine's weights came from: the server response or the
bundled local model_weights.json snapshot. -/
inductive WeightsSource (α : Type)
  | fromServer (w : ModelWeights α)
  | fromLocal (w : ModelWeights α)
deriving DecidableEq

def WeightsSource.weights {α : Type} : WeightsSource α → ModelWeights α
  | .fromServer w => w
  | .fromLocal w => w

/-- The catch-block fallback shared by loadBrain and fetchGlobalWeights:
fetch the bundled model_weights.json and parse it; if that fetch rejects or
its body does not parse, the exception propagates (none). -/
def localFallback (cached : FetchOutcome (ModelWeights ℚ)) :
    Option (WeightsSource ℚ) :=
  match cached with
  | .netError => none
  | .ok r => r.body.map WeightsSource.fromLocal

/-- TinyVAE.loadBrain (content script): try the server's /get-global-model
and response.json(); any exception (network error or JSON-parse failure)
falls into the catch block, which loads the bundled snapshot.  The HTTP
status code is never inspected.  Returns the loaded weights and their
source; none means both paths threw and loaded stays false. -/
def loadBrain (server cached : FetchOutcome (ModelWeights ℚ)) :
    Option (WeightsSource ℚ) :=
  match server with
  | .netError => localFallback cached
  | .ok r =>
    match r.body with
    | some w => some (WeightsSource.fromServer w)
    | none => localFallback cached

/-- fetchGlobalWeights (popup script): same try/catch shape as loadBrain. -/
def fetchGlobalWeights (server cached : FetchOutcome (ModelWeights ℚ)) :
    Option (WeightsSource ℚ) :=
  match server with
  | .netError => localFallback cached
  | .ok r =>
    match r.body with
    | some w => some (WeightsSource.fromServer w)
    | none => localFallback cached

/-! ### Federated training cycle (popup script, runFederatedCycle). -/

/-- The parsed JSON body of the /send-update response: optional status and
message fields (a missing field reads as undefined in JS, modelled none). -/
structure SendResponseBody where
  status : Option String
  message : Option String
deriving DecidableEq

/-- The condition under which runFederatedCycle clears the queue: the POST
yielded a response, its body parsed, and the body's status field is the
string success or accepted. -/
def sendOk (post : FetchOutcome SendResponseBody) : Bool :=
  match post with
  | .netError => false
  | .ok r =>
    match r.body with
    | none => false
    | some b => b.status = some "success" || b.status = some "accepted"

/-- The network calls runFederatedCycle can issue, in order: the GET of
/get-global-model and the POST to /send-update. -/
inductive NetworkCall
  | getGlobalModel
  | sendUpdate
deriving DecidableEq

/-- The user-visible status line at the end of a cycle: the no-data
warning, the completion message, or the error message of the catch block
(carrying e.message). -/
inductive CycleStatus
  | noData
  | completed
  | failed
deriving DecidableEq

/-- Observable result of one runFederatedCycle invocation. -/
structure CycleResult where
  status : CycleStatus
  calls : List NetworkCall
  finalLogs : List TrainingLogEntry
  cleared : Bool
  sent : Option (NN6 ℚ)
deriving DecidableEq

/-- runFederatedCycle: abort with a warning when the queue is empty (before
any network call); otherwise fetch weights (GET, with local fallback, an
exception when both fail), train on the logs, POST the updated decoder, and
clear the queue exactly when the parsed response status is success or
accepted.  Every thrown error lands in the catch block with the queue
untouched. -/
def runFederatedCycle (logs : List TrainingLogEntry)
    (server cached : FetchOutcome (ModelWeights ℚ))
    (post : FetchOutcome SendResponseBody) : CycleResult :=
  if logs.isEmpty then
    { status := .noData, calls := [], finalLogs := logs, cleared := false, sent := none }
  else
    match fetchGlobalWeights server cached with
    | none =>
      { status := .failed, calls := [.getGlobalModel], finalLogs := logs
        cleared := false, sent := none }
    | some src =>
      let updatedDecoder := (trainOnLogs src.weights logs).2
      if sendOk post then
        { status := .completed, calls := [.getGlobalModel, .sendUpdate]
          finalLogs := [], cleared := true, sent := some updatedDecoder }
      else
        { status := .failed, calls := [.getGlobalModel, .sendUpdate]
          finalLogs := logs, cleared := false, sent := some updatedDecoder }

/-! ### Math engine (content script, MathOps.dense) and TinyVAE.predict.
JS floats are modelled as real numbers; the sigmoid branch uses the real
exponential, so these definitions are noncomputable. -/

/-- The activation applied inside the loop of MathOps.dense: relu pushes
max(0, sum), sigmoid pushes 1/(1+exp(-sum)), anything else pushes sum. -/
noncomputable def applyActivation (activation : String) (x : ℝ) : ℝ :=
  if activation = "relu" then max 0 x
  else if activation = "sigmoid" then 1 / (1 + Real.exp (-x))
  else x

/-- MathOps.dense: one output per column j of the weight matrix
(j < weights[0].length), each the activation of bias[j] plus the sum over
the input indices i of input[i] * weights[i][j].  The bias is optional
(if (bias) in the source); out-of-range JS indexing is modelled by getD. -/
noncomputable def dense (input : List ℝ) (weights : List (List ℝ))
    (bias : Option (List ℝ)) (activation : String) : List ℝ :=
  (List.range (weights.headD []).length).map fun j =>
    let s0 := ((List.range input.length).map
      fun i => input.getD i 0 * (weights.getD i []).getD j 0).sum
    let s := match bias with
      | some b => s0 + b.getD j 0
      | none => s0
    applyActivation activation s

/-- TinyVAE.predict: null when the engine is not loaded, otherwise three
encoder layers (relu, relu, linear) followed by three decoder layers
(relu, relu, sigmoid). -/
noncomputable def predict (loaded : Bool) (w : ModelWeights ℝ)
    (features : List ℝ) : Option (List ℝ) :=
  if !loaded then none
  else
    let h1 := dense features w.encoder.l0 (some w.encoder.l1) "relu"
    let h2 := dense h1 w.encoder.l2 (some w.encoder.l3) "relu"
    let z_mean := dense h2 w.encoder.l4 (some w.encoder.l5) "linear"
    let d1 := dense z_mean w.decoder.l0 (some w.decoder.l1) "relu"
    let d2 := dense d1 w.decoder.l2 (some w.decoder.l3) "relu"
    some (dense d2 w.decoder.l4 (some w.decoder.l5) "sigmoid")

/-! ### Feature extractor (content script, extractFeatures lines 236-273).
The scraping front end (SEO metadata, DOM fallback) supplies a lowercased
product name and a positive price; the embedding covers the pure tail of
extractFeatures that turns those into the normalized 4-vector. -/

/-- CONFIG.COMPANY_MAP as the ordered key/value list the for..in loop
visits. -/
def COMPANY_MAP : List (String × ℕ) :=
  [("apple", 0), ("hp", 1), ("lenovo", 2), ("asus", 3), ("dell", 4),
   ("acer", 5), ("msi", 6), ("toshiba", 7), ("microsoft", 8), ("xiaomi", 9),
   ("huawei", 10), ("razer", 11), ("samsung", 12)]

/-- First argument is a prefix of the second, on character lists. -/
def isPrefixChars : List Char → List Char → Bool
  | [], _ => true
  | _ :: _, [] => false
  | d :: ds, c :: cs => d = c && isPrefixChars ds cs

/-- The needle occurs contiguously somewhere in the haystack. -/
def includesChars (needle : List Char) : List Char → Bool
  | [] => isPrefixChars needle []
  | c :: cs => isPrefixChars needle (c :: cs) || includesChars needle cs

/-- JS String.prototype.includes. -/
def includes (s sub : String) : Bool :=
  includesChars sub.toList s.toList

/-- Brand extraction: the first COMPANY_MAP key contained in the name wins;
otherwise the default bucket 13. -/
def brandIdxOfName (name : String) : ℕ :=
  match COMPANY_MAP.find? (fun p => includes name p.1) with
  | some p => p.2
  | none => 13

/-- Type extraction: gaming keywords give 2, ultrabook keywords give 1,
otherwise 0. -/
def typeIdxOfName (name : String) : ℕ :=
  if includes name "gaming" || includes name "rog" ||
      includes name "alienware" || includes name "tuf" then 2
  else if includes name "ultrabook" || includes name "macbook" ||
      includes name "air" then 1
  else 0

/-- parseInt on the digit run captured by the RAM regex. -/
def digitsVal (ds : List Char) : ℕ :=
  ds.foldl (fun a c => 10 * a + (c.toNat - 48)) 0

/-- One attempt of the RAM regex at a fixed start position: one or more
digits, optional whitespace, the letters gb, optional whitespace, then ram
or ddr.  The name is lowercased first, matching the /i flag. -/
def ramMatchAt (cs : List Char) : Option ℕ :=
  let ds := cs.takeWhile Char.isDigit
  if ds = [] then none
  else
    let rest := (cs.drop ds.length).dropWhile Char.isWhitespace
    match rest with
    | 'g' :: 'b' :: rest2 =>
      (match rest2.dropWhile Char.isWhitespace with
       | 'r' :: 'a' :: 'm' :: _ => some (digitsVal ds)
       | 'd' :: 'd' :: 'r' :: _ => some (digitsVal ds)
       | _ => none)
    | _ => none

/-- Leftmost match of the RAM regex: try every start position from the
left, as String.prototype.match does. -/
def ramScan : List Char → Option ℕ
  | [] => none
  | c :: cs =>
    match ramMatchAt (c :: cs) with
    | some n => some n
    | none => ramScan cs

/-- RAM extraction: the captured number of the first regex match, or the
default of 8. -/
def ramOfName (name : String) : ℕ :=
  (ramScan (name.toList.map Char.toLower)).getD 8

/-- extractFeatures, pure tail: the normalized 4-vector
[typeIdx/5, brandIdx/13, ram/MAX_RAM, price/MAX_PRICE]. -/
def extractFeatures (name : String) (price : ℚ) : List ℚ :=
  [(typeIdxOfName name : ℚ) / 5, (brandIdxOfName name : ℚ) / 13,
   (ramOfName name : ℚ) / MAX_RAM, price / MAX_PRICE]

/-! ### Lemmas about the local trainer -/

lemma countUnderpriced_nil : countUnderpriced [] = 0 := rfl

lemma countUnderpriced_cons (l : TrainingLogEntry) (ls : List TrainingLogEntry) :
    countUnderpriced (l :: ls)
      = (if l.type = "UNDERPRICED_DEAL" then 1 else 0) + countUnderpriced ls := by
  by_cases h : l.type = "UNDERPRICED_DEAL" <;>
    simp [countUnderpriced, List.filter_cons, h, Nat.add_comm]

lemma map_sub_map_sub (l : List ℚ) (a b : ℚ) :
    (l.map (fun x => x - a)).map (fun x => x - b) = l.map (fun x => x - (a + b)) := by
  rw [List.map_map]
  refine List.map_congr_left fun x _ => ?_
  simp [Function.comp]
  ring

lemma foldl_trainStep_l4 (logs : List TrainingLogEntry) (d : NN6 ℚ) :
    (logs.foldl trainStep d).l4
      = d.l4.map (fun row => row.map
          (fun x => x - LEARNING_RATE * 0.001 * countUnderpriced logs)) := by
  induction logs generalizing d with
  | nil =>
    simp [countUnderpriced_nil]
  | cons l ls ih =>
    rw [List.foldl_cons, ih, countUnderpriced_cons]
    by_cases h : l.type = "UNDERPRICED_DEAL"
    · simp only [trainStep, if_pos h]
      rw [List.map_map]
      refine List.map_congr_left fun row _ => ?_
      simp only [Function.comp]
      rw [map_sub_map_sub]
      refine List.map_congr_left fun x _ => ?_
      push_cast
      ring
    · simp only [trainStep, if_neg h, if_neg h]
      refine List.map_congr_left fun row _ => ?_
      refine List.map_congr_left fun x _ => ?_
      norm_num

lemma trainStep_frame (d : NN6 ℚ) (l : TrainingLogEntry) :
    (trainStep d l).l0 = d.l0 ∧ (trainStep d l).l1 = d.l1 ∧
    (trainStep d l).l2 = d.l2 ∧ (trainStep d l).l3 = d.l3 ∧
    (trainStep d l).l5 = d.l5 := by
  by_cases h : l.type = "UNDERPRICED_DEAL" <;> simp [trainStep, h]

lemma foldl_trainStep_frame (logs : List TrainingLogEntry) (d : NN6 ℚ) :
    (logs.foldl trainStep d).l0 = d.l0 ∧ (logs.foldl trainStep d).l1 = d.l1 ∧
    (logs.foldl trainStep d).l2 = d.l2 ∧ (logs.foldl trainStep d).l3 = d.l3 ∧
    (logs.foldl trainStep d).l5 = d.l5 := by
  induction logs generalizing d with
  | nil => simp
  | cons l ls ih =>
    rw [List.foldl_cons]
    obtain ⟨h0, h1, h2, h3, h5⟩ := ih (trainStep d l)
    obtain ⟨g0, g1, g2, g3, g5⟩ := trainStep_frame d l
    exact ⟨h0.trans g0, h1.trans g1, h2.trans g2, h3.trans g3, h5.trans g5⟩

lemma foldl_trainStep_id (logs : List TrainingLogEntry) (d : NN6 ℚ)
    (h : ∀ l ∈ logs, l.type ≠ "UNDERPRICED_DEAL") :
    logs.foldl trainStep d = d := by
  induction logs generalizing d with
  | nil => rfl
  | cons l ls ih =>
    rw [List.foldl_cons, trainStep, if_neg (h l (by simp))]
    exact ih d fun x hx => h x (by simp [hx])

/-- Sample data for concrete evaluations. -/
def sampleLogU : TrainingLogEntry :=
  { timestamp := "2026-01-01T00:00:00Z", site := "amazon"
    features := [0, 0, 0, 1/10], reconstruction_error := 1/50
    type := "UNDERPRICED_DEAL" }

def sampleLogO : TrainingLogEntry :=
  { timestamp := "2026-01-01T00:00:00Z", site := "flipkart"
    features := [0, 0, 0, 1/10], reconstruction_error := 1/50
    type := "OVERPRICED_BIAS" }

def sampleWeightsQ : ModelWeights ℚ :=
  { encoder := ⟨[[1]], [0], [[1]], [0], [[1]], [0]⟩
    decoder := ⟨[[1]], [0], [[1]], [0], [[1, 2]], [0]⟩ }

/-- C1: trainOnLogs returns a decoder whose layer-4 weight matrix has every
entry decremented by LEARNING_RATE * 0.001 for each UNDERPRICED_DEAL log
entry; with exactly one such entry every final-layer weight drops by
exactly LEARNING_RATE * 0.001, and a log list of OVERPRICED_BIAS entries
only returns the input decoder unchanged. -/
theorem trainOnLogs_final_layer (w : ModelWeights ℚ) (logs : List TrainingLogEntry) :
    ((trainOnLogs w logs).2.l4
      = w.decoder.l4.map (fun row => row.map
          (fun x => x - LEARNING_RATE * 0.001 * countUnderpriced logs)))
    ∧ (countUnderpriced logs = 1 →
        (trainOnLogs w logs).2.l4
          = w.decoder.l4.map (fun row => row.map
              (fun x => x - LEARNING_RATE * 0.001)))
    ∧ ((∀ l ∈ logs, l.type = "OVERPRICED_BIAS") →
        (trainOnLogs w logs).2 = w.decoder) := by
  refine ⟨foldl_trainStep_l4 logs w.decoder, fun h1 => ?_, fun hall => ?_⟩
  · have h := foldl_trainStep_l4 logs w.decoder
    rw [h1] at h
    norm_num at h ⊢
    exact h
  · exact foldl_trainStep_id logs w.decoder fun l hl => by
      rw [hall l hl]; decide

/-- Concrete run of trainOnLogs: one UNDERPRICED_DEAL entry lowers each of
the two final-layer weights by 1/20000; an OVERPRICED_BIAS entry leaves the
decoder untouched. -/
theorem trainOnLogs_final_layer_witness :
    (trainOnLogs sampleWeightsQ [sampleLogU]).2.l4
      = [[19999/20000, 39999/20000]]
    ∧ (trainOnLogs sampleWeightsQ [sampleLogO]).2 = sampleWeightsQ.decoder := by
  constructor
  · have h := (trainOnLogs_final_layer sampleWeightsQ [sampleLogU]).2.1 (by decide)
    rw [h]
    norm_num [sampleWeightsQ, LEARNING_RATE]
  · exact (trainOnLogs_final_layer sampleWeightsQ [sampleLogO]).2.2 (by decide)

/-- C7: trainOnLogs never writes the weights object passed in (the deep
copy receives all updates), and in the returned decoder every layer other
than the final weight matrix, that is layers 0 to 3 and the final bias at
index 5, equals the corresponding layer of the input decoder. -/
theorem trainOnLogs_frame (w : ModelWeights ℚ) (logs : List TrainingLogEntry) :
    (trainOnLogs w logs).1 = w
    ∧ (trainOnLogs w logs).2.l0 = w.decoder.l0
    ∧ (trainOnLogs w logs).2.l1 = w.decoder.l1
    ∧ (trainOnLogs w logs).2.l2 = w.decoder.l2
    ∧ (trainOnLogs w logs).2.l3 = w.decoder.l3
    ∧ (trainOnLogs w logs).2.l5 = w.decoder.l5 := by
  obtain ⟨h0, h1, h2, h3, h5⟩ := foldl_trainStep_frame logs w.decoder
  exact ⟨rfl, h0, h1, h2, h3, h5⟩

/-! ### Lemmas about the classifier and the logger -/

lemma popup_none_iff (input output : List ℚ) :
    runAnalysisPopup input output = none ↔
      MAX_ERROR_CAP ≤ |input.getD 3 0 - output.getD 3 0| := by
  simp only [runAnalysisPopup]
  generalize input.getD 3 0 = r
  generalize output.getD 3 0 = f
  split_ifs with h1 h2 h3
  · simp [not_le.mpr h1]
  · simp [not_le.mpr h1]
  · simp [not_le.mpr h1]
  · simp [not_lt.mp h1]

lemma popup_overpriced_iff (input output : List ℚ) :
    runAnalysisPopup input output = some Popup.overpriced ↔
      |input.getD 3 0 - output.getD 3 0| < MAX_ERROR_CAP
        ∧ output.getD 3 0 < input.getD 3 0
        ∧ BIAS_TOLERANCE < |input.getD 3 0 - output.getD 3 0| := by
  simp only [runAnalysisPopup]
  generalize input.getD 3 0 = r
  generalize output.getD 3 0 = f
  split_ifs with h1 h2 h3
  · simp [h1, h2.1, h2.2]
  · simp [h1, h2]
  · simp [h1, h2]
  · simp [h1]

lemma popup_deal_iff (input output : List ℚ) :
    runAnalysisPopup input output = some Popup.deal ↔
      |input.getD 3 0 - output.getD 3 0| < MAX_ERROR_CAP
        ∧ input.getD 3 0 < output.getD 3 0
        ∧ THRESHOLD < |input.getD 3 0 - output.getD 3 0| := by
  simp only [runAnalysisPopup]
  generalize input.getD 3 0 = r
  generalize output.getD 3 0 = f
  split_ifs with h1 h2 h3
  · simp [h1, lt_asymm h2.1]
  · simp [h1, h3.1, h3.2]
  · simp [h1, h3]
  · simp [h1]

lemma popup_fair_iff (input output : List ℚ) :
    runAnalysisPopup input output = some Popup.fair ↔
      |input.getD 3 0 - output.getD 3 0| < MAX_ERROR_CAP
        ∧ ¬(output.getD 3 0 < input.getD 3 0
              ∧ BIAS_TOLERANCE < |input.getD 3 0 - output.getD 3 0|)
        ∧ ¬(input.getD 3 0 < output.getD 3 0
              ∧ THRESHOLD < |input.getD 3 0 - output.getD 3 0|) := by
  simp only [runAnalysisPopup]
  generalize input.getD 3 0 = r
  generalize output.getD 3 0 = f
  split_ifs with h1 h2 h3
  · simp [h1, h2.1, h2.2]
  · simp [h1, h2, h3.1, h3.2]
  · simp [h1, h2, h3]
  · simp [h1]

/-- C2: with real = input[3], fair = output[3] and
error = |real - fair|, a popup is shown exactly when error < MAX_ERROR_CAP,
it reads overpriced exactly when additionally real > fair and
error > BIAS_TOLERANCE, deal exactly when additionally real < fair and
error > THRESHOLD, and fair in the remaining shown cases; nothing is shown
when error >= MAX_ERROR_CAP. -/
theorem runAnalysisPopup_spec (input output : List ℚ) :
    (runAnalysisPopup input output = none ↔
      MAX_ERROR_CAP ≤ |input.getD 3 0 - output.getD 3 0|)
    ∧ (runAnalysisPopup input output = some Popup.overpriced ↔
      |input.getD 3 0 - output.getD 3 0| < MAX_ERROR_CAP
        ∧ output.getD 3 0 < input.getD 3 0
        ∧ BIAS_TOLERANCE < |input.getD 3 0 - output.getD 3 0|)
    ∧ (runAnalysisPopup input output = some Popup.deal ↔
      |input.getD 3 0 - output.getD 3 0| < MAX_ERROR_CAP
        ∧ input.getD 3 0 < output.getD 3 0
        ∧ THRESHOLD < |input.getD 3 0 - output.getD 3 0|)
    ∧ (runAnalysisPopup input output = some Popup.fair ↔
      |input.getD 3 0 - output.getD 3 0| < MAX_ERROR_CAP
        ∧ ¬(output.getD 3 0 < input.getD 3 0
              ∧ BIAS_TOLERANCE < |input.getD 3 0 - output.getD 3 0|)
        ∧ ¬(input.getD 3 0 < output.getD 3 0
              ∧ THRESHOLD < |input.getD 3 0 - output.getD 3 0|)) :=
  ⟨popup_none_iff input output, popup_overpriced_iff input output,
   popup_deal_iff input output, popup_fair_iff input output⟩

/-- Concrete classifier runs: a 20 percent gap on the high side is flagged
overpriced, equal prices are fair, and a gap beyond MAX_ERROR_CAP shows
nothing. -/
theorem runAnalysisPopup_spec_witness :
    runAnalysisPopup [0, 0, 0, (1/2 : ℚ)] [0, 0, 0, 2/5] = some Popup.overpriced
    ∧ runAnalysisPopup [0, 0, 0, (1/2 : ℚ)] [0, 0, 0, 1/2] = some Popup.fair
    ∧ runAnalysisPopup [0, 0, 0, (1/2 : ℚ)] [0, 0, 0, 1/5] = none := by
  refine ⟨?_, ?_, ?_⟩
  · exact (runAnalysisPopup_spec [0, 0, 0, (1/2 : ℚ)] [0, 0, 0, 2/5]).2.1.mpr
      (by norm_num [MAX_ERROR_CAP, BIAS_TOLERANCE, abs])
  · exact (runAnalysisPopup_spec [0, 0, 0, (1/2 : ℚ)] [0, 0, 0, 1/2]).2.2.2.mpr
      (by norm_num [MAX_ERROR_CAP])
  · exact (runAnalysisPopup_spec [0, 0, 0, (1/2 : ℚ)] [0, 0, 0, 1/5]).1.mpr
      (by norm_num [MAX_ERROR_CAP, abs])

/-- C6: a training log entry is appended exactly when
error = |input[3] - output[3]| exceeds THRESHOLD, regardless of the
MAX_ERROR_CAP popup gate; its type is OVERPRICED_BIAS when
input[3] > output[3] and UNDERPRICED_DEAL otherwise, and in particular a
run whose popup is suppressed still logs. -/
theorem runAnalysisQueue_spec (input output : List ℚ) (ts site : String)
    (queue : List TrainingLogEntry) :
    (THRESHOLD < |input.getD 3 0 - output.getD 3 0| →
      runAnalysisQueue input output ts site queue
        = queue ++ [{ timestamp := ts, site := site, features := input
                      reconstruction_error := |input.getD 3 0 - output.getD 3 0|
                      type := if output.getD 3 0 < input.getD 3 0
                              then "OVERPRICED_BIAS"
                              else "UNDERPRICED_DEAL" }])
    ∧ (¬ THRESHOLD < |input.getD 3 0 - output.getD 3 0| →
      runAnalysisQueue input output ts site queue = queue)
    ∧ (runAnalysisPopup input output = none →
        THRESHOLD < |input.getD 3 0 - output.getD 3 0| ∧
          runAnalysisQueue input output ts site queue ≠ queue) := by
  refine ⟨fun h => ?_, fun h => ?_, fun h => ?_⟩
  · simp only [runAnalysisQueue, logForFederatedLearning, if_pos h]
  · simp only [runAnalysisQueue, if_neg h]
  · have hcap := (popup_none_iff input output).mp h
    have hthr : THRESHOLD < |input.getD 3 0 - output.getD 3 0| := by
      have : THRESHOLD < MAX_ERROR_CAP := by norm_num [THRESHOLD, MAX_ERROR_CAP]
      linarith
    refine ⟨hthr, ?_⟩
    simp only [runAnalysisQueue, logForFederatedLearning, if_pos hthr]
    intro hq
    have := congrArg List.length hq
    simp at this

/-- Concrete logger runs: a suppressed popup (error 0.3 above the cap)
still appends an OVERPRICED_BIAS entry, and a zero-error run logs
nothing. -/
theorem runAnalysisQueue_spec_witness :
    runAnalysisPopup [0, 0, 0, (1/2 : ℚ)] [0, 0, 0, 1/5] = none
    ∧ runAnalysisQueue [0, 0, 0, (1/2 : ℚ)] [0, 0, 0, 1/5] "t" "amazon" []
        = [{ timestamp := "t", site := "amazon", features := [0, 0, 0, (1/2 : ℚ)]
             reconstruction_error := 3/10, type := "OVERPRICED_BIAS" }]
    ∧ runAnalysisQueue [0, 0, 0, (1/2 : ℚ)] [0, 0, 0, 1/2] "t" "amazon" [] = [] := by
  have hnone : runAnalysisPopup [0, 0, 0, (1/2 : ℚ)] [0, 0, 0, 1/5] = none :=
    (popup_none_iff _ _).mpr (by norm_num [MAX_ERROR_CAP, abs])
  refine ⟨hnone, ?_, ?_⟩
  · have h := (runAnalysisQueue_spec [0, 0, 0, (1/2 : ℚ)] [0, 0, 0, 1/5]
      "t" "amazon" []).1 (by norm_num [THRESHOLD, abs])
    rw [h]
    norm_num [abs]
  · exact (runAnalysisQueue_spec [0, 0, 0, (1/2 : ℚ)] [0, 0, 0, 1/2]
      "t" "amazon" []).2.1 (by norm_num [THRESHOLD])

/-! ### Lemmas about the federated cycle and weight acquisition -/

lemma sendOk_iff (post : FetchOutcome SendResponseBody) :
    sendOk post = true ↔
      ∃ r b, post = FetchOutcome.ok r ∧ r.body = some b
        ∧ (b.status = some "success" ∨ b.status = some "accepted") := by
  cases post with
  | netError => simp [sendOk]
  | ok r =>
    cases hb : r.body with
    | none => simp [sendOk, hb]
    | some b => simp [sendOk, hb]

/-- C3: the persisted trainingLogs queue is cleared exactly when the POST
to /send-update was issued and its parsed body carries status success or
accepted; on every other outcome (other status, network failure,
JSON-parse failure, or a run that never reaches the POST) the queue is
left unchanged for retry. -/
theorem runFederatedCycle_clear (logs : List TrainingLogEntry)
    (server cached : FetchOutcome (ModelWeights ℚ))
    (post : FetchOutcome SendResponseBody) :
    ((runFederatedCycle logs server cached post).cleared = true ↔
      NetworkCall.sendUpdate ∈ (runFederatedCycle logs server cached post).calls
        ∧ sendOk post = true)
    ∧ ((runFederatedCycle logs server cached post).cleared = true →
        (runFederatedCycle logs server cached post).finalLogs = [])
    ∧ ((runFederatedCycle logs server cached post).cleared = false →
        (runFederatedCycle logs server cached post).finalLogs = logs)
    ∧ (sendOk post = true ↔
        ∃ r b, post = FetchOutcome.ok r ∧ r.body = some b
          ∧ (b.status = some "success" ∨ b.status = some "accepted")) := by
  have main :
      ((runFederatedCycle logs server cached post).cleared = true ↔
        NetworkCall.sendUpdate ∈ (runFederatedCycle logs server cached post).calls
          ∧ sendOk post = true)
      ∧ ((runFederatedCycle logs server cached post).cleared = true →
          (runFederatedCycle logs server cached post).finalLogs = [])
      ∧ ((runFederatedCycle logs server cached post).cleared = false →
          (runFederatedCycle logs server cached post).finalLogs = logs) := by
    by_cases hl : logs.isEmpty
    · have he : logs = [] := List.isEmpty_iff.mp hl
      simp [runFederatedCycle, hl, he]
    · cases hfetch : fetchGlobalWeights server cached with
      | none => simp [runFederatedCycle, hl, hfetch]
      | some src =>
        by_cases hs : sendOk post = true <;>
          simp [runFederatedCycle, hl, hfetch, hs]
  exact ⟨main.1, main.2.1, main.2.2, sendOk_iff post⟩

/-- Concrete cycle runs: with one log queued, a parsed status of success
clears the queue, and a parsed status of rejected leaves it untouched. -/
theorem runFederatedCycle_clear_witness :
    (runFederatedCycle [sampleLogU]
        (FetchOutcome.ok ⟨200, some sampleWeightsQ⟩) FetchOutcome.netError
        (FetchOutcome.ok ⟨200, some ⟨some "success", none⟩⟩)).cleared = true
    ∧ (runFederatedCycle [sampleLogU]
        (FetchOutcome.ok ⟨200, some sampleWeightsQ⟩) FetchOutcome.netError
        (FetchOutcome.ok ⟨200, some ⟨some "success", none⟩⟩)).finalLogs = []
    ∧ (runFederatedCycle [sampleLogU]
        (FetchOutcome.ok ⟨200, some sampleWeightsQ⟩) FetchOutcome.netError
        (FetchOutcome.ok ⟨200, some ⟨some "rejected", some "because"⟩⟩)).cleared = false
    ∧ (runFederatedCycle [sampleLogU]
        (FetchOutcome.ok ⟨200, some sampleWeightsQ⟩) FetchOutcome.netError
        (FetchOutcome.ok ⟨200, some ⟨some "rejected", some "because"⟩⟩)).finalLogs
      = [sampleLogU] := by
  refine ⟨rfl, ?_, rfl, ?_⟩
  · exact (runFederatedCycle_clear [sampleLogU]
      (FetchOutcome.ok ⟨200, some sampleWeightsQ⟩) FetchOutcome.netError
      (FetchOutcome.ok ⟨200, some ⟨some "success", none⟩⟩)).2.1 rfl
  · exact (runFederatedCycle_clear [sampleLogU]
      (FetchOutcome.ok ⟨200, some sampleWeightsQ⟩) FetchOutcome.netError
      (FetchOutcome.ok ⟨200, some ⟨some "rejected", some "because"⟩⟩)).2.2.1 rfl

/-- C9: with an empty trainingLogs queue the cycle surfaces the no-data
warning and aborts before any network call: no GET, no POST, nothing sent,
queue untouched and not cleared. -/
theorem runFederatedCycle_noData (server cached : FetchOutcome (ModelWeights ℚ))
    (post : FetchOutcome SendResponseBody) :
    (runFederatedCycle [] server cached post).status = CycleStatus.noData
    ∧ (runFederatedCycle [] server cached post).calls = []
    ∧ (runFederatedCycle [] server cached post).finalLogs = []
    ∧ (runFederatedCycle [] server cached post).cleared = false
    ∧ (runFederatedCycle [] server cached post).sent = none :=
  ⟨rfl, rfl, rfl, rfl, rfl⟩

/-- A server-shaped weights value distinct from the bundled sample, for
concrete counterexamples. -/
def badGlobalW : ModelWeights ℚ :=
  { encoder := ⟨[[2]], [1], [[2]], [1], [[2]], [1]⟩
    decoder := ⟨[[2]], [1], [[2]], [1], [[2]], [1]⟩ }

/-- C4 counterexample: a /get-global-model response with the non-success
HTTP status 500 whose body parses as JSON is accepted as the weights by
both loadBrain and fetchGlobalWeights; no fallback to the bundled snapshot
happens, contradicting fallback on any failure including non-success HTTP
status. -/
theorem loadBrain_status_counterexample :
    isSuccessStatus 500 = false
    ∧ loadBrain (FetchOutcome.ok ⟨500, some badGlobalW⟩)
        (FetchOutcome.ok ⟨200, some sampleWeightsQ⟩)
        = some (WeightsSource.fromServer badGlobalW)
    ∧ fetchGlobalWeights (FetchOutcome.ok ⟨500, some badGlobalW⟩)
        (FetchOutcome.ok ⟨200, some sampleWeightsQ⟩)
        = some (WeightsSource.fromServer badGlobalW)
    ∧ WeightsSource.fromServer badGlobalW
        ≠ WeightsSource.fromLocal sampleWeightsQ := by
  refine ⟨rfl, rfl, rfl, ?_⟩
  simp

/-- C4 amended: loadBrain and fetchGlobalWeights behave identically; they
fall back to the bundled snapshot exactly on network error or JSON-parse
failure of the server payload, accept any payload that parses regardless
of HTTP status, and whenever loading completes the weights come either
from the server response or from the bundled snapshot. -/
theorem loadBrain_fallback (server cached : FetchOutcome (ModelWeights ℚ)) :
    (loadBrain server cached = fetchGlobalWeights server cached)
    ∧ (server = FetchOutcome.netError →
        loadBrain server cached = localFallback cached)
    ∧ (∀ s, server = FetchOutcome.ok ⟨s, none⟩ →
        loadBrain server cached = localFallback cached)
    ∧ (∀ s w, server = FetchOutcome.ok ⟨s, some w⟩ →
        loadBrain server cached = some (WeightsSource.fromServer w))
    ∧ (∀ src, loadBrain server cached = some src →
        (∃ w, src = WeightsSource.fromServer w)
        ∨ (∃ s w, cached = FetchOutcome.ok ⟨s, some w⟩
            ∧ src = WeightsSource.fromLocal w)) := by
  refine ⟨?_, ?_, ?_, ?_, ?_⟩
  · cases server with
    | netError => rfl
    | ok r => cases r.body <;> rfl
  · rintro rfl
    rfl
  · rintro s rfl
    rfl
  · rintro s w rfl
    rfl
  · intro src hsrc
    have hlocal : ∀ c : FetchOutcome (ModelWeights ℚ), localFallback c = some src →
        ∃ s w, c = FetchOutcome.ok ⟨s, some w⟩
          ∧ src = WeightsSource.fromLocal w := by
      intro c hc
      cases c with
      | netError => simp [localFallback] at hc
      | ok rc =>
        obtain ⟨s, b⟩ := rc
        cases b with
        | none => simp [localFallback] at hc
        | some w =>
          simp [localFallback] at hc
          exact ⟨s, w, rfl, hc.symm⟩
    cases server with
    | netError => exact Or.inr (hlocal cached hsrc)
    | ok r =>
      obtain ⟨s, b⟩ := r
      cases b with
      | some w => exact Or.inl ⟨w, (Option.some.inj hsrc).symm⟩
      | none => exact Or.inr (hlocal cached hsrc)

/-- Concrete weight acquisitions: network error and parse failure fall
back to the bundled snapshot, a parsed server payload is taken from the
server. -/
theorem loadBrain_fallback_witness :
    loadBrain FetchOutcome.netError (FetchOutcome.ok ⟨200, some sampleWeightsQ⟩)
      = some (WeightsSource.fromLocal sampleWeightsQ)
    ∧ loadBrain (FetchOutcome.ok ⟨200, none⟩)
        (FetchOutcome.ok ⟨200, some sampleWeightsQ⟩)
      = some (WeightsSource.fromLocal sampleWeightsQ)
    ∧ loadBrain (FetchOutcome.ok ⟨200, some badGlobalW⟩) FetchOutcome.netError
      = some (WeightsSource.fromServer badGlobalW) := by
  refine ⟨?_, ?_, ?_⟩
  · rw [(loadBrain_fallback FetchOutcome.netError
      (FetchOutcome.ok ⟨200, some sampleWeightsQ⟩)).2.1 rfl]
    rfl
  · rw [(loadBrain_fallback (FetchOutcome.ok ⟨200, none⟩)
      (FetchOutcome.ok ⟨200, some sampleWeightsQ⟩)).2.2.1 200 rfl]
    rfl
  · exact (loadBrain_fallback (FetchOutcome.ok ⟨200, some badGlobalW⟩)
      FetchOutcome.netError).2.2.2.1 200 badGlobalW rfl

/-! ### Lemmas about the math engine -/

lemma sum_map_range (f : ℕ → ℝ) (n : ℕ) :
    ((List.range n).map f).sum = ∑ i ∈ Finset.range n, f i := by
  induction n with
  | zero => simp
  | succ m ih =>
    rw [List.range_succ, List.map_append, List.sum_append, Finset.sum_range_succ, ih]
    simp

lemma dense_getD (input : List ℝ) (weights : List (List ℝ)) (b : List ℝ)
    (activation : String) (j : ℕ) (hj : j < (weights.headD []).length) :
    (dense input weights (some b) activation).getD j 0
      = applyActivation activation
          (((List.range input.length).map
              fun i => input.getD i 0 * (weights.getD i []).getD j 0).sum
            + b.getD j 0) := by
  simp only [dense]
  rw [List.getD_eq_getElem?_getD, List.getElem?_map, List.getElem?_range hj]
  rfl

lemma dense_length (input : List ℝ) (weights : List (List ℝ))
    (bias : Option (List ℝ)) (activation : String) :
    (dense input weights bias activation).length = (weights.headD []).length := by
  simp [dense]

/-- C8: every dense-layer output has the width of the weight matrix's
column count, and its j-th component is the activation of
bias_j plus the sum over i of input_i * weight[i][j], where the activation
is max(0, x) for relu, 1/(1+exp(-x)) for sigmoid, and the identity for any
other tag (linear). -/
theorem dense_spec (input : List ℝ) (weights : List (List ℝ)) (b : List ℝ)
    (activation : String) (j : ℕ) (hj : j < (weights.headD []).length) :
    (dense input weights (some b) activation).length = (weights.headD []).length
    ∧ (activation = "relu" →
        (dense input weights (some b) activation).getD j 0
          = max 0 (b.getD j 0 + ∑ i ∈ Finset.range input.length,
              input.getD i 0 * (weights.getD i []).getD j 0))
    ∧ (activation = "sigmoid" →
        (dense input weights (some b) activation).getD j 0
          = 1 / (1 + Real.exp (-(b.getD j 0 + ∑ i ∈ Finset.range input.length,
              input.getD i 0 * (weights.getD i []).getD j 0))))
    ∧ (activation ≠ "relu" → activation ≠ "sigmoid" →
        (dense input weights (some b) activation).getD j 0
          = b.getD j 0 + ∑ i ∈ Finset.range input.length,
              input.getD i 0 * (weights.getD i []).getD j 0) := by
  have hget := dense_getD input weights b activation j hj
  rw [sum_map_range, add_comm] at hget
  refine ⟨dense_length input weights (some b) activation,
    fun hr => ?_, fun hs => ?_, fun hr hs => ?_⟩
  · rw [hget]
    simp only [applyActivation, if_pos hr]
  · rw [hget]
    have : activation ≠ "relu" := by rw [hs]; decide
    simp only [applyActivation, if_neg this, if_pos hs]
  · rw [hget]
    simp only [applyActivation, if_neg hr, if_neg hs]

/-- Concrete dense-layer run: one input, a 1 x 1 weight matrix and a bias,
linear activation: width 1, output 3 + 1 * 2 = 5. -/
theorem dense_spec_witness :
    (dense [1] [[2]] (some [3]) "linear").length = 1
    ∧ (dense [1] [[2]] (some [3]) "linear").getD 0 0 = 5 := by
  have h := dense_spec [1] [[2]] [3] "linear" 0 (by simp)
  refine ⟨h.1, ?_⟩
  rw [h.2.2.2 (by decide) (by decide)]
  simp [Finset.sum_range_succ]
  norm_num

lemma applyActivation_sigmoid (x : ℝ) :
    applyActivation "sigmoid" x = 1 / (1 + Real.exp (-x)) := by
  simp [applyActivation]

lemma applyActivation_sigmoid_bounds (x : ℝ) :
    0 < applyActivation "sigmoid" x ∧ applyActivation "sigmoid" x < 1 := by
  have hx : (0 : ℝ) < Real.exp (-x) := Real.exp_pos _
  rw [applyActivation_sigmoid]
  constructor
  · positivity
  · rw [div_lt_one (by positivity)]
    linarith

lemma mem_dense_sigmoid (input : List ℝ) (weights : List (List ℝ))
    (bias : Option (List ℝ)) :
    ∀ y ∈ dense input weights bias "sigmoid", 0 < y ∧ y < 1 := by
  intro y hy
  simp only [dense, List.mem_map] at hy
  obtain ⟨j, -, rfl⟩ := hy
  exact applyActivation_sigmoid_bounds _

/-- C10: predict returns null when the engine is not loaded; when loaded,
every component of the returned vector lies strictly between 0 and 1
because the final decoder layer is sigmoid, so the fair-price signal
reconstructed[3] * MAX_PRICE is strictly below MAX_PRICE. -/
theorem predict_range (w : ModelWeights ℝ) (features : List ℝ) :
    predict false w features = none
    ∧ ∀ out, predict true w features = some out →
        (∀ y ∈ out, 0 < y ∧ y < 1)
        ∧ (3 < out.length →
            out.getD 3 0 * ((MAX_PRICE : ℚ) : ℝ) < ((MAX_PRICE : ℚ) : ℝ)) := by
  refine ⟨rfl, fun out hout => ?_⟩
  simp only [predict, Bool.not_true, Bool.false_eq_true, if_false,
    Option.some.injEq] at hout
  have hmem : ∀ y ∈ out, 0 < y ∧ y < 1 := by
    rw [← hout]
    exact mem_dense_sigmoid _ _ _
  refine ⟨hmem, fun h3 => ?_⟩
  have hy := hmem (out.getD 3 0)
    (by rw [List.getD_eq_getElem _ _ h3]; exact out.getElem_mem h3)
  have hMP : (0 : ℝ) < ((MAX_PRICE : ℚ) : ℝ) := by norm_num [MAX_PRICE]
  calc out.getD 3 0 * ((MAX_PRICE : ℚ) : ℝ)
      < 1 * ((MAX_PRICE : ℚ) : ℝ) := by
        exact mul_lt_mul_of_pos_right hy.2 hMP
    _ = ((MAX_PRICE : ℚ) : ℝ) := one_mul _

/-- All-zero weights with a 4-wide final layer, for a concrete predict
run. -/
noncomputable def sampleWeightsR : ModelWeights ℝ :=
  { encoder := ⟨[[0]], [0], [[0]], [0], [[0]], [0]⟩
    decoder := ⟨[[0]], [0], [[0]], [0], [[0, 0, 0, 0]], [0, 0, 0, 0]⟩ }

lemma dense_single (x w b : ℝ) (act : String) :
    dense [x] [[w]] (some [b]) act = [applyActivation act (x * w + b)] := by
  simp [dense, List.range_succ]

/-- Concrete predict run: the all-zero model reconstructs
[1/2, 1/2, 1/2, 1/2], whose components are strictly inside (0, 1) and whose
price component times MAX_PRICE stays below MAX_PRICE. -/
theorem predict_range_witness :
    predict true sampleWeightsR [0] = some [1/2, 1/2, 1/2, 1/2]
    ∧ (0 < (1/2 : ℝ) ∧ (1/2 : ℝ) < 1)
    ∧ (1/2 : ℝ) * ((MAX_PRICE : ℚ) : ℝ) < ((MAX_PRICE : ℚ) : ℝ)
    ∧ predict false sampleWeightsR [0] = none := by
  have h0 : dense [(0 : ℝ)] [[0]] (some [0]) "relu" = [0] := by
    rw [dense_single]
    simp [applyActivation]
  have h1 : dense [(0 : ℝ)] [[0]] (some [0]) "linear" = [0] := by
    rw [dense_single]
    simp [applyActivation]
  have h2 : dense [(0 : ℝ)] [[0, 0, 0, 0]] (some [0, 0, 0, 0]) "sigmoid"
      = [1/2, 1/2, 1/2, 1/2] := by
    simp [dense, applyActivation, List.range_succ, Real.exp_zero]
    norm_num
  have hp : predict true sampleWeightsR [0] = some [1/2, 1/2, 1/2, 1/2] := by
    simp only [predict, Bool.not_true, Bool.false_eq_true, if_false, sampleWeightsR]
    rw [h0, h0, h1, h0, h0, h2]
  have h := (predict_range sampleWeightsR [0]).2 [1/2, 1/2, 1/2, 1/2] hp
  refine ⟨hp, h.1 (1/2) (by simp), ?_, (predict_range sampleWeightsR [0]).1⟩
  have := h.2 (by simp)
  simpa using this

/-! ### Lemmas about the feature extractor -/

lemma typeIdxOfName_le (name : String) : typeIdxOfName name ≤ 2 := by
  unfold typeIdxOfName
  split_ifs <;> omega

lemma brandIdxOfName_le (name : String) : brandIdxOfName name ≤ 13 := by
  unfold brandIdxOfName
  cases hf : COMPANY_MAP.find? (fun p => includes name p.1) with
  | none => exact le_refl 13
  | some p =>
    have hm := List.mem_of_find?_eq_some hf
    have hall : ∀ q ∈ COMPANY_MAP, q.2 ≤ 13 := by decide
    exact hall p hm

/-- C5 amended: extractFeatures yields the 4-vector
[type_norm, brand_norm, ram_norm, price_norm]; type_norm and brand_norm
always lie in [0, 1] and an unknown brand falls into the default bucket
13, but ram_norm and price_norm are merely nonnegative quotients with no
clipping: they stay within [0, 1] exactly when the raw RAM is at most
MAX_RAM and the raw price at most MAX_PRICE, and exceed 1 beyond that. -/
theorem extractFeatures_range (name : String) (price : ℚ) :
    (extractFeatures name price).length = 4
    ∧ (0 ≤ (extractFeatures name price).getD 0 0
        ∧ (extractFeatures name price).getD 0 0 ≤ 1)
    ∧ (0 ≤ (extractFeatures name price).getD 1 0
        ∧ (extractFeatures name price).getD 1 0 ≤ 1)
    ∧ 0 ≤ (extractFeatures name price).getD 2 0
    ∧ (0 ≤ price → 0 ≤ (extractFeatures name price).getD 3 0)
    ∧ ((extractFeatures name price).getD 2 0 ≤ 1 ↔ (ramOfName name : ℚ) ≤ MAX_RAM)
    ∧ ((extractFeatures name price).getD 3 0 ≤ 1 ↔ price ≤ MAX_PRICE)
    ∧ ((∀ p ∈ COMPANY_MAP, includes name p.1 = false) →
        brandIdxOfName name = 13) := by
  have g0 : (extractFeatures name price).getD 0 0 = (typeIdxOfName name : ℚ) / 5 := rfl
  have g1 : (extractFeatures name price).getD 1 0 = (brandIdxOfName name : ℚ) / 13 := rfl
  have g2 : (extractFeatures name price).getD 2 0 = (ramOfName name : ℚ) / MAX_RAM := rfl
  have g3 : (extractFeatures name price).getD 3 0 = price / MAX_PRICE := rfl
  refine ⟨rfl, ⟨?_, ?_⟩, ⟨?_, ?_⟩, ?_, fun hp => ?_, ?_, ?_, fun hnone => ?_⟩
  · rw [g0]
    positivity
  · rw [g0, div_le_one (by norm_num)]
    refine le_trans ?_ (by norm_num : (2 : ℚ) ≤ 5)
    exact_mod_cast typeIdxOfName_le name
  · rw [g1]
    positivity
  · rw [g1, div_le_one (by norm_num)]
    exact_mod_cast brandIdxOfName_le name
  · rw [g2]
    simp only [MAX_RAM]
    positivity
  · rw [g3]
    simp only [MAX_PRICE]
    exact div_nonneg hp (by norm_num)
  · rw [g2]
    simp only [MAX_RAM]
    exact div_le_one (by norm_num)
  · rw [g3]
    simp only [MAX_PRICE]
    exact div_le_one (by norm_num)
  · have hnone' : COMPANY_MAP.find? (fun p => includes name p.1) = none :=
      List.find?_eq_none.mpr fun a ha => by simp [hnone a ha]
    unfold brandIdxOfName
    rw [hnone']

/-- Concrete extraction: an unknown brand with default RAM and an in-range
price yields [0, 1, 1/8, 1/2], all within [0, 1], with the brand in the
default bucket. -/
theorem extractFeatures_range_witness :
    extractFeatures "unknown thing" 250000 = [0, 1, 1/8, 1/2]
    ∧ brandIdxOfName "unknown thing" = 13
    ∧ (extractFeatures "unknown thing" 250000).getD 3 0 ≤ 1 := by
  have ht : typeIdxOfName "unknown thing" = 0 := by decide
  have hb : brandIdxOfName "unknown thing" = 13 := by decide
  have hr : ramOfName "unknown thing" = 8 := by decide
  refine ⟨?_, ?_, ?_⟩
  · simp [extractFeatures, ht, hb, hr, MAX_RAM, MAX_PRICE]
    norm_num
  · exact (extractFeatures_range "unknown thing" 250000).2.2.2.2.2.2.2 (by decide)
  · exact (extractFeatures_range "unknown thing" 250000).2.2.2.2.2.2.1.mpr
      (by norm_num [MAX_PRICE])

/-- C5 counterexample: a product name advertising 128 GB RAM produces
ram_norm = 128/64 = 2, and a 600000 price produces price_norm = 6/5; both
components escape [0, 1], so extractFeatures does not clip out-of-range
raw values. -/
theorem extractFeatures_clip_counterexample :
    extractFeatures "lenovo laptop with 128gb ram" 100000 = [0, 2/13, 2, 1/5]
    ∧ ramOfName "lenovo laptop with 128gb ram" = 128
    ∧ ¬ ((extractFeatures "lenovo laptop with 128gb ram" 100000).getD 2 0 ≤ 1)
    ∧ (extractFeatures "dell xps" 600000).getD 3 0 = 6/5
    ∧ ¬ ((extractFeatures "dell xps" 600000).getD 3 0 ≤ 1) := by
  have ht : typeIdxOfName "lenovo laptop with 128gb ram" = 0 := by decide
  have hb : brandIdxOfName "lenovo laptop with 128gb ram" = 2 := by decide
  have hr : ramOfName "lenovo laptop with 128gb ram" = 128 := by decide
  have heq : extractFeatures "lenovo laptop with 128gb ram" 100000
      = [0, 2/13, 2, 1/5] := by
    simp [extractFeatures, ht, hb, hr, MAX_RAM, MAX_PRICE]
    norm_num
  have g2 : (extractFeatures "lenovo laptop with 128gb ram" 100000).getD 2 0
      = 2 := by rw [heq]; rfl
  have g3 : (extractFeatures "dell xps" 600000).getD 3 0
      = (600000 : ℚ) / MAX_PRICE := rfl
  refine ⟨heq, hr, ?_, ?_, ?_⟩
  · rw [g2]
    norm_num
  · rw [g3]
    norm_num [MAX_PRICE]
  · rw [g3]
    norm_num [MAX_PRICE]

end FairMarket
